import Mathlib

/-!
Shallow embedding of the order-lifecycle and loyalty-ledger core of the
restaurant backend (restaurant2/models.py and restaurant2/serializers.py).

Modelling conventions:
- Database rows become Lean structures; the persisted store is a `DB` record
  of lists, one per table. Auto-assigned primary keys are modelled by a
  single fresh-id counter `nextId`.
- `MenuItem.price` is a Django `DecimalField(max_digits=10, decimal_places=2)`;
  we represent money as an integer number of cents (1/100 currency units),
  which is exact for 2-decimal-place decimals, so `price * quantity` and sums
  of such products are computed exactly with no rounding step.
- Timestamps (`auto_now_add` fields) and employee references are omitted:
  no verified property reads them.
- Fallible lookups are total with documented defaults where the source relies
  on referential integrity.
-/

inductive OrderStatus
  | PENDING
  | PREPARING
  | READY
  | COMPLETED
  | CANCELLED
deriving DecidableEq

/-- A row of the Order table (restaurant2/models.py, class Order).
`status` defaults to PENDING and `paid` to false at the Django level;
the defaults are applied in `OrderManageSerializer.create` below. -/
structure OrderRec where
  id : Nat
  restaurantId : Nat
  tableId : Option Nat
  userId : Option Nat
  status : OrderStatus
  paid : Bool
deriving DecidableEq

/-- A row of the OrderItem table (restaurant2/models.py, class OrderItem). -/
structure OrderItemRec where
  id : Nat
  orderId : Nat
  menuItemId : Nat
  quantity : Nat
deriving DecidableEq

/-- A row of the OrderStatusHistory table (restaurant2/models.py). -/
structure HistoryRec where
  orderId : Nat
  status : OrderStatus
deriving DecidableEq

/-- A row of the Point table (restaurant2/models.py, class Point):
an immutable ledger entry (customer, restaurant, signed amount). -/
structure PointRec where
  userId : Nat
  restaurantId : Nat
  amount : Int
deriving DecidableEq

/-- A row of the MenuItem table; `price` is in cents. -/
structure MenuItemRec where
  id : Nat
  restaurantId : Nat
  price : Int
deriving DecidableEq

/-- The persisted store: one list per relevant table, plus a fresh-id
counter standing in for auto-assigned primary keys. -/
structure DB where
  orders : List OrderRec
  order_items : List OrderItemRec
  status_history : List HistoryRec
  points : List PointRec
  menu_items : List MenuItemRec
  nextId : Nat
deriving DecidableEq

/-- Modelled from the spec: `UserModel.get_total_points` lives in
users/models.py, which is not under src/; per spec section 4.2 the balance of
a (customer, restaurant) pair is the sum of all Point entries for that pair,
zero if none exist. -/
def get_total_points (points : List PointRec) (u r : Nat) : Int :=
  ((points.filter (fun p => p.userId == u && p.restaurantId == r)).map
    (fun p => p.amount)).sum

/-- `Point.add_points` (restaurant2/models.py lines 136-138): creates one
Point row with the given user, restaurant and amount; no validation. -/
def Point.add_points (db : DB) (u r : Nat) (amount : Int) : DB :=
  { db with points := db.points ++ [⟨u, r, amount⟩] }

/-- `Point.spend_points` (restaurant2/models.py lines 140-145): if the
user's total points at the restaurant are at least `amount`, creates one
Point row with amount `-amount` and returns true; otherwise returns false
and creates nothing. -/
def Point.spend_points (db : DB) (u r : Nat) (amount : Int) : DB × Bool :=
  if amount ≤ get_total_points db.points u r then
    ({ db with points := db.points ++ [⟨u, r, -amount⟩] }, true)
  else
    (db, false)

/-- `Table.is_available` (restaurant2/models.py lines 117-119): a table is
available iff no order referencing it has status PENDING or PREPARING.
The table's `orders` related set is the list of orders whose `tableId`
is this table. -/
def Table.is_available (orders : List OrderRec) (tid : Nat) : Bool :=
  !(orders.any (fun o =>
    decide (o.tableId = some tid ∧
      (o.status = OrderStatus.PENDING ∨ o.status = OrderStatus.PREPARING))))

/-- Price of the menu item with the given id; the source accesses
`item.menu_item.price` through a non-null foreign key, so the `none`
branch is unreachable under referential integrity (spec section 7). -/
def menu_price (menu : List MenuItemRec) (mid : Nat) : Int :=
  match menu.find? (fun m => m.id == mid) with
  | some m => m.price
  | none => 0

/-- `Order.get_total_cost` (restaurant2/models.py lines 234-237):
`sum(item.menu_item.price * item.quantity for item in self.order_items.all())`,
a left fold of additions starting from 0, in cents. -/
def Order.get_total_cost (menu : List MenuItemRec) (items : List OrderItemRec) : Int :=
  items.foldl (fun acc it => acc + menu_price menu it.menuItemId * (it.quantity : Int)) 0

/-- The total of the order with id `oid` in the store: `get_total_cost`
over the order's related `order_items`, at current menu prices. -/
def order_total (db : DB) (oid : Nat) : Int :=
  Order.get_total_cost db.menu_items (db.order_items.filter (fun i => i.orderId == oid))

/-- Payload of one entry of the `items` list accepted by
`OrderItemManageSerializer` (fields menu_item, quantity; employee omitted). -/
structure OrderItemData where
  menuItemId : Nat
  quantity : Nat
deriving DecidableEq

/-- Validated data accepted by `OrderManageSerializer` on create: the
writable fields restaurant, table, user, status, paid and the nested items
list. `status` and `paid` carry model defaults (PENDING, false), so they
are optional in the request; `none` means the field was absent. -/
structure OrderCreateData where
  restaurantId : Nat
  tableId : Option Nat
  userId : Option Nat
  status : Option OrderStatus
  paid : Option Bool
  items : List OrderItemData
deriving DecidableEq

/-- Validated data accepted by `OrderManageSerializer.update`: the outer
`Option` on each field records whether the key was present in
`validated_data` (Python `validated_data.get(key, fallback)` /
`'status' in validated_data`). -/
structure OrderUpdateData where
  table : Option (Option Nat)
  status : Option OrderStatus
  paid : Option Bool
  items : Option (List OrderItemData)
deriving DecidableEq

/-- Rows created by `OrderItem.objects.create(order=..., **order_item_data)`
for a list of item payloads, with fresh ids from `base`. -/
def createItems (oid base : Nat) (items : List OrderItemData) : List OrderItemRec :=
  items.enum.map (fun p => ⟨base + p.1, oid, p.2.menuItemId, p.2.quantity⟩)

/-- `OrderManageSerializer.create` (restaurant2/serializers.py lines
113-119): pops `items`, creates the Order (model defaults PENDING / false
apply to absent status / paid), creates one OrderItem per entry, then
creates exactly one OrderStatusHistory row carrying `order.status`. -/
def OrderManageSerializer.create (db : DB) (cd : OrderCreateData) : DB :=
  let oid := db.nextId
  let st := cd.status.getD OrderStatus.PENDING
  { db with
    orders := db.orders ++
      [⟨oid, cd.restaurantId, cd.tableId, cd.userId, st, cd.paid.getD false⟩],
    order_items := db.order_items ++ createItems oid (oid + 1) cd.items,
    status_history := db.status_history ++ [⟨oid, st⟩],
    nextId := oid + 1 + cd.items.length }

/-- The field assignments of `OrderManageSerializer.update` on the Order
instance: `instance.table = validated_data.get("table", instance.table)`
and likewise for status and paid. -/
def applyOrderFields (vd : OrderUpdateData) (o : OrderRec) : OrderRec :=
  { o with
    tableId := vd.table.getD o.tableId,
    status := vd.status.getD o.status,
    paid := vd.paid.getD o.paid }

/-- `OrderManageSerializer.update` (restaurant2/serializers.py lines
121-140): updates table / status / paid from the present keys and saves; if
`items` was supplied, deletes all of the order's OrderItems and creates the
new ones; finally, iff `status` was a key of `validated_data`, creates one
OrderStatusHistory row with the (already assigned) new status. There is no
check of the order's current state. -/
def OrderManageSerializer.update (db : DB) (oid : Nat) (vd : OrderUpdateData) : DB :=
  { db with
    orders := db.orders.map (fun o => if o.id = oid then applyOrderFields vd o else o),
    order_items :=
      match vd.items with
      | none => db.order_items
      | some its =>
          db.order_items.filter (fun i => !(i.orderId == oid)) ++ createItems oid db.nextId its,
    status_history :=
      match vd.status with
      | none => db.status_history
      | some s => db.status_history ++ [⟨oid, s⟩],
    nextId :=
      match vd.items with
      | none => db.nextId
      | some its => db.nextId + its.length }

/-- `OrderCancelSerializer.update` (restaurant2/serializers.py lines
151-155): unconditionally sets status to CANCELLED, saves, and creates one
CANCELLED history row. No check of the current state. -/
def OrderCancelSerializer.update (db : DB) (oid : Nat) : DB :=
  { db with
    orders := db.orders.map (fun o =>
      if o.id = oid then { o with status := OrderStatus.CANCELLED } else o),
    status_history := db.status_history ++ [⟨oid, OrderStatus.CANCELLED⟩] }

/-- `OrderItemCancelSerializer.update` (restaurant2/serializers.py lines
163-173): deletes the order item; if the parent order then has no remaining
items, sets the order's status to CANCELLED, saves, and creates one
CANCELLED history row. No check of the parent order's current state. -/
def OrderItemCancelSerializer.update (db : DB) (item : OrderItemRec) : DB :=
  let remaining := db.order_items.filter (fun i => !(i.id == item.id))
  if (remaining.filter (fun i => i.orderId == item.orderId)).isEmpty then
    { db with
      order_items := remaining,
      orders := db.orders.map (fun o =>
        if o.id = item.orderId then { o with status := OrderStatus.CANCELLED } else o),
      status_history := db.status_history ++ [⟨item.orderId, OrderStatus.CANCELLED⟩] }
  else
    { db with order_items := remaining }

/-- Modelled from the spec: the view orchestrating a status change
(`OrderUpdateView` in restaurant2/views.py) is not under src/. Per spec
section 4.4, `setStatus` applies the serializer update with the new status
and, when the new status is COMPLETED, triggers the loyalty award
`Ledger.earn(order.customer, order.restaurant, pointsFor(order.total))` —
skipped entirely when the order has no associated customer. `pointsFor`
is kept as a parameter because the spec calls it a configurable
conversion. -/
def setStatus (pointsFor : Int → Int) (db : DB) (oid : Nat) (newStatus : OrderStatus) : DB :=
  let db1 := OrderManageSerializer.update db oid
    { table := none, status := some newStatus, paid := none, items := none }
  if newStatus = OrderStatus.COMPLETED then
    match db1.orders.find? (fun o => o.id == oid) with
    | some o =>
        match o.userId with
        | some u => Point.add_points db1 u o.restaurantId (pointsFor (order_total db1 oid))
        | none => db1
    | none => db1
  else
    db1

/-- The empty store. -/
def emptyDB : DB :=
  { orders := [], order_items := [], status_history := [], points := [],
    menu_items := [], nextId := 0 }

/-! ## Helper lemmas about the ledger balance -/

theorem get_total_points_append (ps qs : List PointRec) (u r : Nat) :
    get_total_points (ps ++ qs) u r = get_total_points ps u r + get_total_points qs u r := by
  simp [get_total_points, List.filter_append]

theorem get_total_points_single (u r : Nat) (a : Int) :
    get_total_points [⟨u, r, a⟩] u r = a := by
  simp [get_total_points]

theorem get_total_points_snoc (ps : List PointRec) (u r : Nat) (a : Int) :
    get_total_points (ps ++ [⟨u, r, a⟩]) u r = get_total_points ps u r + a := by
  rw [get_total_points_append, get_total_points_single]

/-! ## C2: spend succeeds iff balance suffices -/

/-- C2: for every customer, restaurant and amount, `spend_points` returns
true iff the current balance is at least the amount; on success it appends
exactly one Point entry of `-amount` (so the balance drops by the amount),
and on failure it appends nothing and the balance is unchanged. -/
theorem spend_points_success_iff_balance (db : DB) (u r : Nat) (amount : Int) :
    ((Point.spend_points db u r amount).2 = true ↔
      amount ≤ get_total_points db.points u r)
    ∧ (Point.spend_points db u r amount).1.points =
        (if amount ≤ get_total_points db.points u r then
          db.points ++ [⟨u, r, -amount⟩] else db.points)
    ∧ get_total_points (Point.spend_points db u r amount).1.points u r =
        (if amount ≤ get_total_points db.points u r then
          get_total_points db.points u r - amount else get_total_points db.points u r) := by
  by_cases h : amount ≤ get_total_points db.points u r
  · refine ⟨by simp [Point.spend_points, h], by simp [Point.spend_points, h], ?_⟩
    simp only [Point.spend_points, if_pos h]
    rw [get_total_points_snoc]
    ring
  · exact ⟨by simp [Point.spend_points, h], by simp [Point.spend_points, h],
      by simp [Point.spend_points, h]⟩

/-! ## C7: earn accepts any amount (no positivity check) -/

/-- C7 counterexample: the claim says a non-positive amount is rejected as
an invalid-argument error and appends no Point entry; but `add_points` on
amount -5 appends exactly that entry. -/
theorem add_points_nonpositive_counterexample :
    (Point.add_points emptyDB 1 2 (-5)).points = [⟨1, 2, -5⟩] := by
  rfl

/-- C7 amended: `add_points` performs no validation: for every amount,
positive, zero or negative, it appends exactly one Point entry with that
amount (shifting the pair's balance by exactly that amount) and never
fails; nothing else in the store changes. -/
theorem add_points_appends_unconditionally (db : DB) (u r : Nat) (a : Int) :
    (Point.add_points db u r a).points = db.points ++ [⟨u, r, a⟩]
    ∧ get_total_points (Point.add_points db u r a).points u r =
        get_total_points db.points u r + a
    ∧ (Point.add_points db u r a).orders = db.orders
    ∧ (Point.add_points db u r a).order_items = db.order_items
    ∧ (Point.add_points db u r a).status_history = db.status_history := by
  refine ⟨rfl, ?_, rfl, rfl, rfl⟩
  exact get_total_points_snoc db.points u r a

/-! ## C8: table availability -/

/-- C8: `is_available` returns false iff at least one order referencing the
table has status PENDING or PREPARING; in particular a table with no
orders at all is available. -/
theorem is_available_iff_no_active_order (orders : List OrderRec) (tid : Nat) :
    (Table.is_available orders tid = false ↔
      ∃ o ∈ orders, o.tableId = some tid ∧
        (o.status = OrderStatus.PENDING ∨ o.status = OrderStatus.PREPARING))
    ∧ Table.is_available [] tid = true := by
  constructor
  · simp [Table.is_available, List.any_eq_true]
  · rfl

/-! ## C10: spend with non-positive amount -/

/-- C10: `spend_points` performs no positivity check: for every amount ≤ 0
with current balance ≥ amount, it appends a Point entry of `-amount` and
returns true; when the amount is strictly negative the balance strictly
increases. -/
theorem spend_points_nonpositive_succeeds (db : DB) (u r : Nat) (amount : Int)
    (hbal : amount ≤ get_total_points db.points u r) :
    (Point.spend_points db u r amount).2 = true
    ∧ (Point.spend_points db u r amount).1.points = db.points ++ [⟨u, r, -amount⟩]
    ∧ (amount < 0 →
        get_total_points db.points u r <
          get_total_points (Point.spend_points db u r amount).1.points u r) := by
  refine ⟨by simp [Point.spend_points, hbal], by simp [Point.spend_points, hbal], ?_⟩
  intro hneg
  simp only [Point.spend_points, if_pos hbal]
  rw [get_total_points_snoc]
  omega

/-- C10 witness: on the empty store (balance 0), spending -5 succeeds,
appends the entry ⟨0, 0, 5⟩ and raises the balance from 0 to 5. -/
theorem spend_points_nonpositive_succeeds_witness :
    (Point.spend_points emptyDB 0 0 (-5)).2 = true
    ∧ (Point.spend_points emptyDB 0 0 (-5)).1.points = [⟨0, 0, 5⟩]
    ∧ get_total_points (Point.spend_points emptyDB 0 0 (-5)).1.points 0 0 = 5 := by
  have h := spend_points_nonpositive_succeeds emptyDB 0 0 (-5) (by decide)
  exact ⟨h.1, by rw [h.2.1]; rfl, by decide⟩

/-! ## C9 / C4: history rows appended by create and update -/

/-- A store holding one PENDING order (id 0) with one item and its
creation history row. -/
def pendingOrderDB : DB :=
  { orders := [⟨0, 1, none, none, OrderStatus.PENDING, false⟩],
    order_items := [⟨1, 0, 1, 1⟩],
    status_history := [⟨0, OrderStatus.PENDING⟩],
    points := [], menu_items := [⟨1, 1, 500⟩], nextId := 2 }

/-- C9: an update appends exactly one history row iff the request carried a
`status` key — also when the supplied status equals the order's current
status (second conjunct: history grows to two identical PENDING rows) —
and appends none when `status` is absent even though table, paid and the
item list change (third conjunct). -/
theorem update_history_iff_status_key (db : DB) (oid : Nat) (vd : OrderUpdateData) :
    ((OrderManageSerializer.update db oid vd).status_history =
      match vd.status with
      | some s => db.status_history ++ [⟨oid, s⟩]
      | none => db.status_history)
    ∧ (OrderManageSerializer.update pendingOrderDB 0
        { table := none, status := some OrderStatus.PENDING, paid := none,
          items := none }).status_history
        = [⟨0, OrderStatus.PENDING⟩, ⟨0, OrderStatus.PENDING⟩]
    ∧ (OrderManageSerializer.update pendingOrderDB 0
        { table := some (some 4), status := none, paid := some true,
          items := some [⟨1, 3⟩] }).status_history
        = pendingOrderDB.status_history := by
  refine ⟨?_, rfl, rfl⟩
  cases h : vd.status <;> simp [OrderManageSerializer.update, h]

/-- C4 counterexample: the claim says the single history row created with
an order carries status PENDING; but `OrderManageSerializer` exposes
`status` as a writable field, and a create request supplying
status = PREPARING yields a single history row carrying PREPARING. -/
theorem create_history_not_pending_counterexample :
    (OrderManageSerializer.create emptyDB
      { restaurantId := 1, tableId := none, userId := none,
        status := some OrderStatus.PREPARING, paid := none,
        items := [⟨1, 1⟩] }).status_history
      = [⟨0, OrderStatus.PREPARING⟩] := by
  rfl

/-- C4 amended: immediately after creation the new order's history has
exactly one row, carrying the order's initial status — PENDING when the
create request supplied no status, otherwise the supplied status — and
every update carrying a status key appends exactly one history row with
the new status, growing the history by exactly 1. -/
theorem create_one_history_update_appends_one (db : DB) (cd : OrderCreateData)
    (oid : Nat) (vd : OrderUpdateData) (s : OrderStatus)
    (hfresh : ∀ h ∈ db.status_history, h.orderId ≠ db.nextId)
    (hs : vd.status = some s) :
    ((OrderManageSerializer.create db cd).status_history.filter
        (fun h => h.orderId == db.nextId))
      = [⟨db.nextId, cd.status.getD OrderStatus.PENDING⟩]
    ∧ (OrderManageSerializer.update db oid vd).status_history
        = db.status_history ++ [⟨oid, s⟩]
    ∧ (OrderManageSerializer.update db oid vd).status_history.length
        = db.status_history.length + 1 := by
  refine ⟨?_, ?_, ?_⟩
  · simp only [OrderManageSerializer.create, List.filter_append]
    rw [List.filter_eq_nil_iff.mpr, List.nil_append]
    · simp
    · intro a ha
      simp [hfresh a ha]
  · simp [OrderManageSerializer.update, hs]
  · simp [OrderManageSerializer.update, hs]

/-- C4 witness: creating an order (no status supplied) on the store with
fresh id 2 yields exactly one history row ⟨2, PENDING⟩ for the new order,
and an update of order 0 to READY appends exactly one READY row. -/
theorem create_one_history_update_appends_one_witness :
    ((OrderManageSerializer.create pendingOrderDB
        { restaurantId := 1, tableId := none, userId := none,
          status := none, paid := none, items := [⟨1, 2⟩] }).status_history.filter
        (fun h => h.orderId == pendingOrderDB.nextId))
      = [⟨2, OrderStatus.PENDING⟩]
    ∧ (OrderManageSerializer.update pendingOrderDB 0
        { table := none, status := some OrderStatus.READY, paid := none,
          items := none }).status_history
      = [⟨0, OrderStatus.PENDING⟩, ⟨0, OrderStatus.READY⟩] := by
  have h := create_one_history_update_appends_one pendingOrderDB
    { restaurantId := 1, tableId := none, userId := none,
      status := none, paid := none, items := [⟨1, 2⟩] }
    0
    { table := none, status := some OrderStatus.READY, paid := none, items := none }
    OrderStatus.READY (by decide) rfl
  exact ⟨h.1, h.2.1⟩

/-! ## C1 / C5: terminal orders and single-item cancellation -/

/-- Both branches of `OrderItemCancelSerializer.update` store the same
remaining item list: the original list minus the rows with the deleted
item's id. -/
theorem cancelItem_order_items_eq (db : DB) (item : OrderItemRec) :
    (OrderItemCancelSerializer.update db item).order_items
      = db.order_items.filter (fun i => !(i.id == item.id)) := by
  unfold OrderItemCancelSerializer.update
  simp only []
  split <;> rfl

/-- A store with a single COMPLETED (hence terminal) order, its item and
its two history rows. -/
def completedDB : DB :=
  { orders := [⟨0, 1, none, some 7, OrderStatus.COMPLETED, true⟩],
    order_items := [⟨1, 0, 1, 2⟩],
    status_history := [⟨0, OrderStatus.PENDING⟩, ⟨0, OrderStatus.COMPLETED⟩],
    points := [], menu_items := [⟨1, 1, 500⟩], nextId := 2 }

/-- C1 counterexample: the claim says an update of a COMPLETED order is
rejected and leaves order and history unchanged; but updating the
COMPLETED order 0 to PREPARING changes its status and grows its history
from 2 to 3 rows. -/
theorem terminal_order_mutated_counterexample :
    ((OrderManageSerializer.update completedDB 0
      { table := none, status := some OrderStatus.PREPARING, paid := none,
        items := none }).orders.map (fun o => o.status)) = [OrderStatus.PREPARING]
    ∧ (OrderManageSerializer.update completedDB 0
        { table := none, status := some OrderStatus.PREPARING, paid := none,
          items := none }).status_history.length = 3 := by
  exact ⟨rfl, rfl⟩

/-- C1 amended: the serializers perform no terminal-state check, so on an
order in a terminal state (COMPLETED or CANCELLED) the operations proceed
exactly as on any other order: a status-carrying update rewrites the
status and appends one history row, cancel forces CANCELLED and appends a
row, item cancellation deletes the item, and an item-list update replaces
the order's items; nothing is rejected. -/
theorem terminal_orders_not_guarded (db : DB) (o : OrderRec) (vd : OrderUpdateData)
    (s : OrderStatus) (item : OrderItemRec) (its : List OrderItemData)
    (ho : o ∈ db.orders)
    (hterm : o.status = OrderStatus.COMPLETED ∨ o.status = OrderStatus.CANCELLED)
    (hs : vd.status = some s)
    (hit : item ∈ db.order_items) (hio : item.orderId = o.id) :
    (∀ o' ∈ (OrderManageSerializer.update db o.id vd).orders, o'.id = o.id →
        o'.status = s)
    ∧ (OrderManageSerializer.update db o.id vd).status_history
        = db.status_history ++ [⟨o.id, s⟩]
    ∧ (∀ o' ∈ (OrderCancelSerializer.update db o.id).orders, o'.id = o.id →
        o'.status = OrderStatus.CANCELLED)
    ∧ (OrderCancelSerializer.update db o.id).status_history
        = db.status_history ++ [⟨o.id, OrderStatus.CANCELLED⟩]
    ∧ (∀ i ∈ (OrderItemCancelSerializer.update db item).order_items, i.id ≠ item.id)
    ∧ (OrderItemCancelSerializer.update db item).order_items.length
        < db.order_items.length
    ∧ (OrderManageSerializer.update db o.id
        { table := none, status := none, paid := none, items := some its }).order_items
        = db.order_items.filter (fun i => !(i.orderId == o.id))
          ++ createItems o.id db.nextId its := by
  refine ⟨?_, ?_, ?_, ?_, ?_, ?_, rfl⟩
  · intro o' ho' hid
    rcases List.mem_map.mp ho' with ⟨x, hx, rfl⟩
    by_cases hxo : x.id = o.id
    · simp [hxo, applyOrderFields, hs]
    · rw [if_neg hxo] at hid
      exact absurd hid hxo
  · simp [OrderManageSerializer.update, hs]
  · intro o' ho' hid
    rcases List.mem_map.mp ho' with ⟨x, hx, rfl⟩
    by_cases hxo : x.id = o.id
    · simp [hxo]
    · rw [if_neg hxo] at hid
      exact absurd hid hxo
  · rfl
  · intro i hi
    rw [cancelItem_order_items_eq] at hi
    have := List.of_mem_filter hi
    simpa using this
  · rw [cancelItem_order_items_eq]
    exact List.length_filter_lt_length_iff_exists.mpr ⟨item, hit, by simp⟩

/-- C1 witness: on the COMPLETED order 0 of `completedDB`, the update to
PREPARING appends a history row, cancel appends a CANCELLED row, and item
cancellation deletes the item — none is rejected. -/
theorem terminal_orders_not_guarded_witness :
    (OrderManageSerializer.update completedDB 0
      { table := none, status := some OrderStatus.PREPARING, paid := none,
        items := none }).status_history
      = completedDB.status_history ++ [⟨0, OrderStatus.PREPARING⟩]
    ∧ (OrderCancelSerializer.update completedDB 0).status_history
      = completedDB.status_history ++ [⟨0, OrderStatus.CANCELLED⟩]
    ∧ (OrderItemCancelSerializer.update completedDB ⟨1, 0, 1, 2⟩).order_items.length
      < completedDB.order_items.length := by
  have h := terminal_orders_not_guarded completedDB
    ⟨0, 1, none, some 7, OrderStatus.COMPLETED, true⟩
    { table := none, status := some OrderStatus.PREPARING, paid := none, items := none }
    OrderStatus.PREPARING ⟨1, 0, 1, 2⟩ []
    (by decide) (Or.inl rfl) rfl (by decide) rfl
  exact ⟨h.2.1, h.2.2.2.1, h.2.2.2.2.2.1⟩

/-- Splitting the item list by one id: the rows with the id and the rows
without it together account for the whole list. -/
theorem length_filter_not_id (l : List OrderItemRec) (n : Nat) :
    (l.filter (fun i => !(i.id == n))).length + (l.filter (fun i => i.id == n)).length
      = l.length := by
  induction l with
  | nil => rfl
  | cons x xs ih =>
      by_cases h : x.id = n <;> simp [List.filter_cons, h] <;> omega

/-- C5: `cancelItem` deletes the order item (exactly one row, under
primary-key uniqueness of its id); if the parent order then has zero
remaining items, the order's status becomes CANCELLED and one CANCELLED
history row is appended; if items remain, the orders and the history are
untouched (so the order's status and paid flag are unchanged) and only the
deleted row is gone. -/
theorem cancelItem_removes_and_cascades (db : DB) (item : OrderItemRec)
    (hone : (db.order_items.filter (fun i => i.id == item.id)).length = 1) :
    (∀ i ∈ (OrderItemCancelSerializer.update db item).order_items, i.id ≠ item.id)
    ∧ (OrderItemCancelSerializer.update db item).order_items.length
        = db.order_items.length - 1
    ∧ (∀ i ∈ db.order_items, i.id ≠ item.id →
        i ∈ (OrderItemCancelSerializer.update db item).order_items)
    ∧ (((db.order_items.filter (fun i => !(i.id == item.id))).filter
          (fun i => i.orderId == item.orderId)).isEmpty = true →
        (∀ o ∈ (OrderItemCancelSerializer.update db item).orders,
            o.id = item.orderId → o.status = OrderStatus.CANCELLED)
        ∧ (OrderItemCancelSerializer.update db item).status_history
            = db.status_history ++ [⟨item.orderId, OrderStatus.CANCELLED⟩])
    ∧ (((db.order_items.filter (fun i => !(i.id == item.id))).filter
          (fun i => i.orderId == item.orderId)).isEmpty = false →
        (OrderItemCancelSerializer.update db item).orders = db.orders
        ∧ (OrderItemCancelSerializer.update db item).status_history
            = db.status_history) := by
  refine ⟨?_, ?_, ?_, ?_, ?_⟩
  · intro i hi
    rw [cancelItem_order_items_eq] at hi
    have := List.of_mem_filter hi
    simpa using this
  · rw [cancelItem_order_items_eq]
    have hsplit := length_filter_not_id db.order_items item.id
    omega
  · intro i hi hne
    rw [cancelItem_order_items_eq]
    exact List.mem_filter.mpr ⟨hi, by simpa using hne⟩
  · intro hcond
    constructor
    · intro o ho hid
      have : (OrderItemCancelSerializer.update db item).orders
          = db.orders.map (fun o =>
              if o.id = item.orderId then { o with status := OrderStatus.CANCELLED } else o) := by
        unfold OrderItemCancelSerializer.update
        simp only []
        rw [if_pos hcond]
      rw [this] at ho
      rcases List.mem_map.mp ho with ⟨x, hx, rfl⟩
      by_cases hxo : x.id = item.orderId
      · simp [hxo]
      · rw [if_neg hxo] at hid
        exact absurd hid hxo
    · unfold OrderItemCancelSerializer.update
      simp only []
      rw [if_pos hcond]
  · intro hcond
    have hcond' : ¬ ((db.order_items.filter (fun i => !(i.id == item.id))).filter
        (fun i => i.orderId == item.orderId)).isEmpty = true := by
      rw [hcond]
      simp
    constructor
    · unfold OrderItemCancelSerializer.update
      simp only []
      rw [if_neg hcond']
    · unfold OrderItemCancelSerializer.update
      simp only []
      rw [if_neg hcond']

/-- C5 witness: on the one-item PENDING order of `pendingOrderDB`,
cancelling item 1 leaves zero items, cascades the order to CANCELLED and
appends the CANCELLED history row. -/
theorem cancelItem_removes_and_cascades_witness :
    (OrderItemCancelSerializer.update pendingOrderDB ⟨1, 0, 1, 1⟩).order_items = []
    ∧ (∀ o ∈ (OrderItemCancelSerializer.update pendingOrderDB ⟨1, 0, 1, 1⟩).orders,
        o.id = 0 → o.status = OrderStatus.CANCELLED)
    ∧ (OrderItemCancelSerializer.update pendingOrderDB ⟨1, 0, 1, 1⟩).status_history
        = [⟨0, OrderStatus.PENDING⟩, ⟨0, OrderStatus.CANCELLED⟩] := by
  have h := cancelItem_removes_and_cascades pendingOrderDB ⟨1, 0, 1, 1⟩ (by decide)
  have h4 := h.2.2.2.1 (by decide)
  exact ⟨by decide, h4.1, by rw [h4.2]; rfl⟩

/-! ## C6: order total is the literal sum, permutation-invariant -/

/-- The source's left fold of additions equals the accumulator plus the sum
of the per-item products. -/
theorem foldl_cost_eq_sum (menu : List MenuItemRec) :
    ∀ (items : List OrderItemRec) (a : Int),
      items.foldl (fun acc it => acc + menu_price menu it.menuItemId * (it.quantity : Int)) a
        = a + (items.map (fun it => menu_price menu it.menuItemId * (it.quantity : Int))).sum := by
  intro items
  induction items with
  | nil => intro a; simp
  | cons x xs ih =>
      intro a
      simp only [List.foldl_cons, List.map_cons, List.sum_cons, ih]
      ring

/-- C6: the computed total equals the literal sum over the items of
`quantity * current menu price` (in cents, so exact at 2 decimal places),
and is invariant under any permutation of the item list. -/
theorem total_is_sum_and_perm_invariant (menu : List MenuItemRec)
    (items items2 : List OrderItemRec) (hperm : items.Perm items2) :
    Order.get_total_cost menu items
      = (items.map (fun it => menu_price menu it.menuItemId * (it.quantity : Int))).sum
    ∧ Order.get_total_cost menu items = Order.get_total_cost menu items2 := by
  have h1 := foldl_cost_eq_sum menu items 0
  have h2 := foldl_cost_eq_sum menu items2 0
  constructor
  · rw [Order.get_total_cost, h1, zero_add]
  · rw [Order.get_total_cost, h1, Order.get_total_cost, h2]
    rw [List.Perm.sum_eq (hperm.map _)]

/-- C6 witness: the spec's example — items priced 8.50 with quantity 2 and
3.25 with quantity 1 — totals 20.25 (2025 cents), in either item order. -/
theorem total_is_sum_and_perm_invariant_witness :
    Order.get_total_cost [⟨1, 1, 850⟩, ⟨2, 1, 325⟩] [⟨10, 0, 1, 2⟩, ⟨11, 0, 2, 1⟩] = 2025
    ∧ Order.get_total_cost [⟨1, 1, 850⟩, ⟨2, 1, 325⟩] [⟨11, 0, 2, 1⟩, ⟨10, 0, 1, 2⟩] = 2025
    ∧ Order.get_total_cost [⟨1, 1, 850⟩, ⟨2, 1, 325⟩] [⟨10, 0, 1, 2⟩, ⟨11, 0, 2, 1⟩]
        = Order.get_total_cost [⟨1, 1, 850⟩, ⟨2, 1, 325⟩] [⟨11, 0, 2, 1⟩, ⟨10, 0, 1, 2⟩] := by
  have h := total_is_sum_and_perm_invariant [⟨1, 1, 850⟩, ⟨2, 1, 325⟩]
    [⟨10, 0, 1, 2⟩, ⟨11, 0, 2, 1⟩] [⟨11, 0, 2, 1⟩, ⟨10, 0, 1, 2⟩] (by decide)
  exact ⟨by decide, by decide, h.2⟩

/-! ## C3: completion triggers the loyalty award -/

/-- Updating order fields never changes the order's id, so looking up an
order id after the per-row update finds the updated image of the row the
lookup found before. -/
theorem find_update_map (orders : List OrderRec) (oid : Nat) (vd : OrderUpdateData) :
    (orders.map (fun o => if o.id = oid then applyOrderFields vd o else o)).find?
        (fun o => o.id == oid)
      = (orders.find? (fun o => o.id == oid)).map
          (fun o => if o.id = oid then applyOrderFields vd o else o) := by
  rw [List.find?_map]
  have hp : ((fun o : OrderRec => o.id == oid) ∘
        fun o => if o.id = oid then applyOrderFields vd o else o)
      = (fun o : OrderRec => o.id == oid) := by
    funext o
    by_cases h : o.id = oid <;> simp [Function.comp, h, applyOrderFields]
  rw [hp]

/-- After a status-only serializer update the looked-up row for the order
is the field-updated image of the row found before the update. -/
theorem update_find_eq (db : DB) (oid : Nat) (o : OrderRec) (vd : OrderUpdateData)
    (ho : db.orders.find? (fun x => x.id == oid) = some o) :
    ((OrderManageSerializer.update db oid vd).orders.find? (fun x => x.id == oid))
      = some (applyOrderFields vd o) := by
  have hid : o.id = oid := by simpa using List.find?_some ho
  show ((db.orders.map _).find? _) = _
  rw [find_update_map, ho, Option.map_some', if_pos hid]

/-- Reducing `setStatus` to COMPLETED for an order with a customer: the
serializer update runs, then `Point.add_points` is called with the
customer, the order's restaurant and `pointsFor` of the order total (the
update leaves items and menu untouched, so the total is the one computed
on the original store). -/
theorem setStatus_completed_eq_some (pf : Int → Int) (db : DB) (oid : Nat)
    (o : OrderRec) (u : Nat)
    (ho : db.orders.find? (fun x => x.id == oid) = some o)
    (hu : o.userId = some u) :
    setStatus pf db oid OrderStatus.COMPLETED =
      Point.add_points
        (OrderManageSerializer.update db oid
          { table := none, status := some OrderStatus.COMPLETED, paid := none,
            items := none })
        u o.restaurantId (pf (order_total db oid)) := by
  have hfind := update_find_eq db oid o
    { table := none, status := some OrderStatus.COMPLETED, paid := none,
      items := none } ho
  have huser : (applyOrderFields
      { table := none, status := some OrderStatus.COMPLETED, paid := none,
        items := none } o).userId = some u := hu
  unfold setStatus
  rw [if_pos rfl, hfind]
  simp only [huser]
  rfl

/-- Reducing `setStatus` to COMPLETED for an order with no customer: the
serializer update runs and the award is skipped. -/
theorem setStatus_completed_eq_none (pf : Int → Int) (db : DB) (oid : Nat)
    (o : OrderRec)
    (ho : db.orders.find? (fun x => x.id == oid) = some o)
    (hu : o.userId = none) :
    setStatus pf db oid OrderStatus.COMPLETED =
      OrderManageSerializer.update db oid
        { table := none, status := some OrderStatus.COMPLETED, paid := none,
          items := none } := by
  have hfind := update_find_eq db oid o
    { table := none, status := some OrderStatus.COMPLETED, paid := none,
      items := none } ho
  have huser : (applyOrderFields
      { table := none, status := some OrderStatus.COMPLETED, paid := none,
        items := none } o).userId = none := hu
  unfold setStatus
  rw [if_pos rfl, hfind]
  simp only [huser]

/-- C3: a successful `setStatus(order, COMPLETED)` on an order with an
associated customer appends exactly one Point entry for that customer at
the order's restaurant, of amount `pointsFor(order.total)`, raising the
customer's balance there by exactly that amount (strictly, when the award
is positive); on an order with no associated customer no Point entry is
created at all. -/
theorem setStatus_completed_awards_points (pf : Int → Int) (db : DB) (oid : Nat)
    (o : OrderRec) (ho : db.orders.find? (fun x => x.id == oid) = some o) :
    (∀ u, o.userId = some u →
      (setStatus pf db oid OrderStatus.COMPLETED).points
          = db.points ++ [⟨u, o.restaurantId, pf (order_total db oid)⟩]
      ∧ get_total_points (setStatus pf db oid OrderStatus.COMPLETED).points
            u o.restaurantId
          = get_total_points db.points u o.restaurantId + pf (order_total db oid)
      ∧ (0 < pf (order_total db oid) →
          get_total_points db.points u o.restaurantId <
            get_total_points (setStatus pf db oid OrderStatus.COMPLETED).points
              u o.restaurantId))
    ∧ (o.userId = none →
        (setStatus pf db oid OrderStatus.COMPLETED).points = db.points) := by
  constructor
  · intro u hu
    rw [setStatus_completed_eq_some pf db oid o u ho hu]
    refine ⟨rfl, ?_, ?_⟩
    · exact get_total_points_snoc db.points u o.restaurantId _
    · intro hpos
      have hsnoc : get_total_points
          (Point.add_points
            (OrderManageSerializer.update db oid
              { table := none, status := some OrderStatus.COMPLETED, paid := none,
                items := none })
            u o.restaurantId (pf (order_total db oid))).points u o.restaurantId
          = get_total_points db.points u o.restaurantId + pf (order_total db oid) :=
        get_total_points_snoc db.points u o.restaurantId _
      omega
  · intro hu
    rw [setStatus_completed_eq_none pf db oid o ho hu]
    rfl

/-- A READY order (id 0) for customer 7 at restaurant 1, with two items:
quantity 2 of menu item 1 (5.00) and quantity 1 of menu item 2 (3.00),
matching the spec's end-to-end completion scenario (total 13.00). -/
def completableDB : DB :=
  { orders := [⟨0, 1, none, some 7, OrderStatus.READY, false⟩],
    order_items := [⟨1, 0, 1, 2⟩, ⟨2, 0, 2, 1⟩],
    status_history := [⟨0, OrderStatus.PENDING⟩],
    points := [], menu_items := [⟨1, 1, 500⟩, ⟨2, 1, 300⟩], nextId := 3 }

/-- C3 witness: completing order 0 of `completableDB` with the conversion
of one point per currency unit awards 13 points (total 13.00) to customer
7 at restaurant 1, raising the balance from 0 to 13. -/
theorem setStatus_completed_awards_points_witness :
    (setStatus (fun t => t / 100) completableDB 0 OrderStatus.COMPLETED).points
      = [⟨7, 1, 13⟩]
    ∧ get_total_points
        (setStatus (fun t => t / 100) completableDB 0 OrderStatus.COMPLETED).points 7 1
      = 13 := by
  have h := setStatus_completed_awards_points (fun t => t / 100) completableDB 0
    ⟨0, 1, none, some 7, OrderStatus.READY, false⟩ (by decide)
  have h1 := h.1 7 rfl
  constructor
  · rw [h1.1]
    decide
  · rw [h1.2.1]
    decide
